import Mathlib

/-!
Shallow embedding of the dictation-service repository
(`src/dictation-service.py` and `src/mic-monitor.py`) and proofs about its
voice-activity-detection loop, pre-roll buffering, transcription handoff,
hallucination filtering, typing, error handling and the microphone monitor.

Audio samples are modelled as rationals (the Python code works on numpy
float32 values obtained from 16-bit integers divided by 32768), and wall
clock times (`time.time()`) as rationals passed explicitly to each loop
iteration.
-/

namespace Dictation

/-- One audio chunk: the float samples obtained from one block of the raw
stream, `np.frombuffer(raw_data, dtype=np.int16).astype(np.float32) / 32768.0`
in `process_audio_stream`. -/
abbrev Chunk := List ℚ

/-- Configuration values of `DictationService` read by the audio loop:
`SILENCE_THRESHOLD`, `SILENCE_DURATION`, `MIN_SPEECH_DURATION` from the
config file, and `PRE_RECORD_SECONDS` with the constant
`CHUNK_SECONDS = 0.01`. -/
structure Config where
  SILENCE_THRESHOLD : ℚ
  SILENCE_DURATION : ℚ
  MIN_SPEECH_DURATION : ℚ
  PRE_RECORD_SECONDS : ℚ
  CHUNK_SECONDS : ℚ
deriving DecidableEq

/-- Capacity of the pre-recording ring buffer:
`self.pre_record_chunks = int(self.PRE_RECORD_SECONDS / self.CHUNK_SECONDS)`
in `DictationService.__init__` (Python `int` truncation; the configured
durations are nonnegative, where truncation and floor agree). -/
def pre_record_chunks (cfg : Config) : Nat :=
  (cfg.PRE_RECORD_SECONDS / cfg.CHUNK_SECONDS).floor.toNat

/-- Mutable state of `DictationService` touched by `process_audio_stream`,
`start_recording` and `stop_recording`.  `speech_start` starts as `None` in
Python but is only read after `start_recording` has set it; it is modelled
as a rational initialised to `0`. -/
structure ServiceState where
  is_recording : Bool
  audio_buffer : List Chunk
  silence_start : Option ℚ
  speech_start : ℚ
  audio_ring_buffer : List Chunk
deriving DecidableEq

/-- State right after `DictationService.__init__`: not recording, empty
segment buffer, no silence timer, empty ring buffer. -/
def initState : ServiceState :=
  { is_recording := false
    audio_buffer := []
    silence_start := none
    speech_start := 0
    audio_ring_buffer := [] }

/-- Mean of the squared samples of a chunk, `np.mean(np.square(data))`,
the quantity under the square root in `calculate_rms`. -/
def meanSq (data : Chunk) : ℚ :=
  (data.map fun x => x * x).sum / data.length

/-- Speech/silence classification of `process_audio_stream`:
`rms > self.SILENCE_THRESHOLD` where
`rms = calculate_rms(audio_data) = np.sqrt(np.mean(np.square(data)))`.
Since `meanSq data` is nonnegative, `sqrt (meanSq data) > c` holds exactly
when `c < 0` or `c ^ 2 < meanSq data`, which is the decidable comparison
recorded here; the equivalence with the literal square-root form is proved
in the theorem about claim C1. -/
def isSpeech (cfg : Config) (data : Chunk) : Bool :=
  decide (cfg.SILENCE_THRESHOLD < 0 ∨ cfg.SILENCE_THRESHOLD ^ 2 < meanSq data)

/-- Appending a chunk to `self.audio_ring_buffer`, a
`collections.deque(maxlen=pre_record_chunks)`: the new element goes on the
right and, past capacity, elements fall off the left. -/
def pushRing (maxlen : Nat) (ring : List Chunk) (c : Chunk) : List Chunk :=
  (ring ++ [c]).drop (ring.length + 1 - maxlen)

/-- `DictationService.start_recording`: when not already recording, set the
flag, reinitialise `audio_buffer` with the contents of the ring buffer
(`self.audio_buffer = []` then `extend(list(self.audio_ring_buffer))`), and
record `speech_start = time.time()`. -/
def start_recording (st : ServiceState) (now : ℚ) : ServiceState :=
  if st.is_recording then st
  else
    { st with
      is_recording := true
      audio_buffer := st.audio_ring_buffer
      speech_start := now }

/-- `DictationService.stop_recording`: when recording, clear the flag; if
the elapsed speech duration is below `MIN_SPEECH_DURATION` the buffer is
discarded; otherwise, if the buffer is nonempty, one background
`process_speech` thread is fired with `np.concatenate(self.audio_buffer)`
(modelled as the joined sample list in the second component); in all cases
`audio_buffer` ends up empty. -/
def stop_recording (cfg : Config) (st : ServiceState) (now : ℚ) :
    ServiceState × Option (List ℚ) :=
  if st.is_recording then
    if now - st.speech_start < cfg.MIN_SPEECH_DURATION then
      ({ st with is_recording := false, audio_buffer := [] }, none)
    else if st.audio_buffer.isEmpty then
      ({ st with is_recording := false, audio_buffer := [] }, none)
    else
      ({ st with is_recording := false, audio_buffer := [] },
        some st.audio_buffer.flatten)
  else (st, none)

/-- One iteration of the `while` loop of
`DictationService.process_audio_stream` on a chunk read at time `now`:
append the chunk to the ring buffer, classify it by RMS, and either start
or extend a recording (speech), or start the silence timer, keep buffering
through a short silence, or stop the recording once the timer exceeds
`SILENCE_DURATION`.  The second component is the audio handed to the
background transcription thread, if the iteration fired one. -/
def processChunk (cfg : Config) (st : ServiceState) (c : Chunk) (now : ℚ) :
    ServiceState × Option (List ℚ) :=
  let st1 := { st with
    audio_ring_buffer := pushRing (pre_record_chunks cfg) st.audio_ring_buffer c }
  if isSpeech cfg c then
    let st2 := start_recording st1 now
    let st3 := { st2 with silence_start := none }
    ({ st3 with audio_buffer := st3.audio_buffer ++ [c] }, none)
  else
    if st1.is_recording then
      match st1.silence_start with
      | none => ({ st1 with silence_start := some now }, none)
      | some s =>
        if cfg.SILENCE_DURATION < now - s then
          stop_recording cfg st1 now
        else
          ({ st1 with audio_buffer := st1.audio_buffer ++ [c] }, none)
    else (st1, none)

/-- Processing a whole trace of chunk arrivals through the loop, keeping
only the state (used to reason about prefixes of the stream). -/
def runTrace (cfg : Config) (st : ServiceState) (tr : List (Chunk × ℚ)) :
    ServiceState :=
  tr.foldl (fun s e => (processChunk cfg s e.1 e.2).1) st

/-- An observable step of the audio loop: either a chunk arriving at a
time, or an exception raised while processing. -/
inductive AudioEvent where
  | chunk (c : Chunk) (t : ℚ)
  | err
deriving DecidableEq

/-- `DictationService.process_audio_stream` including its error handling:
the `try`/`except` wraps the whole `while` loop, so an exception logs and
leaves the function (remaining events are never processed).  Returns the
final state and the list of audio segments handed to transcription
threads, in order. -/
def process_audio_stream (cfg : Config) :
    ServiceState → List AudioEvent → ServiceState × List (List ℚ)
  | st, [] => (st, [])
  | st, AudioEvent.err :: _ => (st, [])
  | st, AudioEvent.chunk c t :: rest =>
    let r := processChunk cfg st c t
    let rr := process_audio_stream cfg r.1 rest
    (rr.1, r.2.toList ++ rr.2)

/-- Hallucination patterns filtered by
`DictationService.is_valid_transcription`. -/
def noise_patterns : List String :=
  [r"thank you", r"thanks for watching", r"subscribe", r"bye",
   r"music", r"[music]", r"applause", r"[applause]",
   r"foreign", r"[foreign]", r"blank", r"[blank]"]

/-- Characters of the Python string literal used in the final
`all(c in ".,!?;: " for c in text)` test of `is_valid_transcription`. -/
def punct_space_chars : List Char :=
  ['.', ',', '!', '?', ';', ':', ' ']

/-- Python `str.strip` on a character list: whitespace removed from both
ends. -/
def pyStrip (l : List Char) : List Char :=
  ((l.dropWhile Char.isWhitespace).reverse.dropWhile Char.isWhitespace).reverse

/-- `DictationService.is_valid_transcription`: rejects texts shorter than
two characters, texts with fewer than two distinct non-space characters
(`len(set(text.replace(" ", ""))) < 2`), known hallucination phrases
(compared against `text.lower().strip()`), and texts made of punctuation
and spaces only. -/
def is_valid_transcription (text : String) : Bool :=
  let text_lower := pyStrip (text.toList.map Char.toLower)
  if text.length < 2 then false
  else if (text.toList.filter fun ch => ch ≠ ' ').dedup.length < 2 then false
  else if noise_patterns.any fun p => p.toList = text_lower then false
  else if text.toList.all fun ch => ch ∈ punct_space_chars then false
  else true

/-- Sentence-final characters tested by
`text.endswith(('.', '!', '?'))` in `type_text`. -/
def sentence_end_chars : List String :=
  [r".", r"!", r"?"]

/-- `DictationService.type_text`: the string handed to
`pyautogui.typewrite`.  Both branches of the `auto_punctuation` test append
exactly one trailing space. -/
def type_text (auto_punctuation : Bool) (text : String) : String :=
  if auto_punctuation && !(sentence_end_chars.any fun p => text.endsWith p) then
    text ++ r" "
  else
    text ++ r" "

/-- Post-transcription decision of `DictationService.process_speech`: the
text is typed exactly when it is truthy (nonempty) and passes
`is_valid_transcription`; the value is the string handed to
`pyautogui.typewrite` by `type_text`, or `none` when the text is filtered
out. -/
def process_speech_typed (auto_punctuation : Bool) (text : String) :
    Option String :=
  if !text.isEmpty && is_valid_transcription text then
    some (type_text auto_punctuation text)
  else none

/-- The three boolean conditions named by the specification, first: the
chunk is classified as speech (above threshold). -/
def condSpeech (cfg : Config) (c : Chunk) : Bool := isSpeech cfg c

/-- Second specification condition: the pre-roll ring buffer is full. -/
def condPreRollFull (cfg : Config) (st : ServiceState) : Bool :=
  decide (pre_record_chunks cfg ≤ st.audio_ring_buffer.length)

/-- Third specification condition: the silence timer is running and has
exceeded `SILENCE_DURATION` at time `now`. -/
def condSilenceExceeded (cfg : Config) (st : ServiceState) (now : ℚ) : Bool :=
  match st.silence_start with
  | none => false
  | some s => decide (cfg.SILENCE_DURATION < now - s)

/-- Additional condition actually tested by `stop_recording`: the elapsed
speech duration has reached `MIN_SPEECH_DURATION`. -/
def condMinSpeechMet (cfg : Config) (st : ServiceState) (now : ℚ) : Bool :=
  decide (cfg.MIN_SPEECH_DURATION ≤ now - st.speech_start)

/-- Indicator actions of the microphone monitor: spawning the tray
indicator with the polled application info, or tearing it down. -/
inductive MicAction where
  | showInd (app : Option String)
  | hideInd
deriving DecidableEq

/-- One iteration of the `while True` loop of `MicrophoneMonitor.run`
after `check_mic_activity` returned `(is_active, app_info)`: show the
indicator on an inactive-to-active transition, hide it on an
active-to-inactive transition, do nothing otherwise.  Returns the new
`mic_active` flag and the action taken, if any. -/
def micStep (mic_active : Bool) (is_active : Bool) (app_info : Option String) :
    Bool × Option MicAction :=
  if is_active && !mic_active then (true, some (MicAction.showInd app_info))
  else if !is_active && mic_active then (false, some MicAction.hideInd)
  else (mic_active, none)

/-- An observable step of the monitor loop: a successful poll of the audio
server, or an exception raised inside the loop body. -/
inductive MicEvent where
  | poll (is_active : Bool) (app_info : Option String)
  | err
deriving DecidableEq

/-- `MicrophoneMonitor.run` including its error handling: the
`try`/`except` sits inside the `while True` loop, so an exception is
logged and the loop continues with the next poll.  Returns the final
`mic_active` flag and the indicator actions taken, in order. -/
def micRun (mic_active : Bool) : List MicEvent → Bool × List MicAction
  | [] => (mic_active, [])
  | MicEvent.err :: rest => micRun mic_active rest
  | MicEvent.poll a app :: rest =>
    let r := micStep mic_active a app
    let rr := micRun r.1 rest
    (rr.1, r.2.toList ++ rr.2)

/-- Concrete configuration with the default config-file values:
threshold `0.02`, silence duration `1.0`, minimum speech duration `0.3`,
pre-record `0.5` seconds, chunk length `0.01` seconds. -/
def exampleCfg : Config :=
  { SILENCE_THRESHOLD := 1 / 50
    SILENCE_DURATION := 1
    MIN_SPEECH_DURATION := 3 / 10
    PRE_RECORD_SECONDS := 1 / 2
    CHUNK_SECONDS := 1 / 100 }

/-- Helper: the mean of squares is nonnegative. -/
theorem meanSq_nonneg (data : Chunk) : 0 ≤ meanSq data := by
  unfold meanSq
  apply div_nonneg
  · exact List.sum_nonneg fun x hx => by
      rcases List.mem_map.1 hx with ⟨y, _, rfl⟩
      exact mul_self_nonneg y
  · exact Nat.cast_nonneg _

/-- Helper: the ring buffer never exceeds its capacity. -/
theorem length_pushRing_le (maxlen : Nat) (ring : List Chunk) (c : Chunk) :
    (pushRing maxlen ring c).length ≤ maxlen := by
  unfold pushRing
  rw [List.length_drop, List.length_append]
  simp only [List.length_cons, List.length_nil]
  omega

/-- Helper: every branch of the loop body leaves the ring buffer equal to
the pushed ring. -/
theorem processChunk_ring (cfg : Config) (st : ServiceState) (c : Chunk)
    (now : ℚ) :
    (processChunk cfg st c now).1.audio_ring_buffer =
      pushRing (pre_record_chunks cfg) st.audio_ring_buffer c := by
  rcases st with ⟨rec, buf, ss, sps, ring⟩
  cases h : isSpeech cfg c
  · cases rec
    · simp [processChunk, h]
    · cases ss with
      | none => simp [processChunk, h]
      | some s =>
        by_cases hd : cfg.SILENCE_DURATION < now - s
        · simp only [processChunk, stop_recording, h]
          split_ifs <;> rfl
        · simp [processChunk, h, hd]
  · cases rec <;> simp [processChunk, start_recording, h]

/-- Branch lemma: a speech chunk while already recording clears the
silence timer and appends the chunk to the buffer. -/
theorem processChunk_speech_cont (cfg : Config) (st : ServiceState)
    (c : Chunk) (now : ℚ) (hc : isSpeech cfg c = true)
    (hr : st.is_recording = true) :
    processChunk cfg st c now =
      ({ st with
          silence_start := none
          audio_buffer := st.audio_buffer ++ [c]
          audio_ring_buffer :=
            pushRing (pre_record_chunks cfg) st.audio_ring_buffer c }, none) := by
  rcases st with ⟨rec, buf, ss, sps, ring⟩
  simp only at hr
  subst hr
  simp [processChunk, start_recording, hc]

/-- Branch lemma: a speech chunk while not recording starts a recording
whose buffer is the updated ring followed by the chunk. -/
theorem processChunk_speech_start (cfg : Config) (st : ServiceState)
    (c : Chunk) (now : ℚ) (hc : isSpeech cfg c = true)
    (hr : st.is_recording = false) :
    processChunk cfg st c now =
      ({ st with
          is_recording := true
          speech_start := now
          silence_start := none
          audio_buffer :=
            pushRing (pre_record_chunks cfg) st.audio_ring_buffer c ++ [c]
          audio_ring_buffer :=
            pushRing (pre_record_chunks cfg) st.audio_ring_buffer c }, none) := by
  rcases st with ⟨rec, buf, ss, sps, ring⟩
  simp only at hr
  subst hr
  simp [processChunk, start_recording, hc]

/-- Branch lemma: a silence chunk while not recording only updates the
ring buffer. -/
theorem processChunk_silence_idle (cfg : Config) (st : ServiceState)
    (c : Chunk) (now : ℚ) (hc : isSpeech cfg c = false)
    (hr : st.is_recording = false) :
    processChunk cfg st c now =
      ({ st with
          audio_ring_buffer :=
            pushRing (pre_record_chunks cfg) st.audio_ring_buffer c }, none) := by
  rcases st with ⟨rec, buf, ss, sps, ring⟩
  simp only at hr
  subst hr
  simp [processChunk, hc]

/-- Branch lemma: the first silence chunk of a run during a recording
starts the silence timer and is not buffered. -/
theorem processChunk_silence_set_timer (cfg : Config) (st : ServiceState)
    (c : Chunk) (now : ℚ) (hc : isSpeech cfg c = false)
    (hr : st.is_recording = true) (hss : st.silence_start = none) :
    processChunk cfg st c now =
      ({ st with
          silence_start := some now
          audio_ring_buffer :=
            pushRing (pre_record_chunks cfg) st.audio_ring_buffer c }, none) := by
  rcases st with ⟨rec, buf, ss, sps, ring⟩
  simp only at hr hss
  subst hr
  subst hss
  simp [processChunk, hc]

/-- Branch lemma: a silence chunk during a recording with the timer
running but not expired is appended to the buffer. -/
theorem processChunk_silence_buffer (cfg : Config) (st : ServiceState)
    (c : Chunk) (now s : ℚ) (hc : isSpeech cfg c = false)
    (hr : st.is_recording = true) (hss : st.silence_start = some s)
    (hd : ¬ cfg.SILENCE_DURATION < now - s) :
    processChunk cfg st c now =
      ({ st with
          audio_buffer := st.audio_buffer ++ [c]
          audio_ring_buffer :=
            pushRing (pre_record_chunks cfg) st.audio_ring_buffer c }, none) := by
  rcases st with ⟨rec, buf, ss, sps, ring⟩
  simp only at hr hss
  subst hr
  subst hss
  simp [processChunk, hc, hd]

/-- Branch lemma: a silence chunk during a recording with the timer
expired stops the recording. -/
theorem processChunk_silence_stop (cfg : Config) (st : ServiceState)
    (c : Chunk) (now s : ℚ) (hc : isSpeech cfg c = false)
    (hr : st.is_recording = true) (hss : st.silence_start = some s)
    (hd : cfg.SILENCE_DURATION < now - s) :
    processChunk cfg st c now =
      stop_recording cfg
        { st with
          audio_ring_buffer :=
            pushRing (pre_record_chunks cfg) st.audio_ring_buffer c } now := by
  rcases st with ⟨rec, buf, ss, sps, ring⟩
  simp only at hr hss
  subst hr
  subst hss
  simp [processChunk, hc, hd]

/-- C1: for every audio chunk, the volume level is the root mean square
`sqrt(mean(square(samples)))` of the chunk, and the chunk is classified as
speech exactly when this RMS is strictly greater than the configured
`SILENCE_THRESHOLD` (`calculate_rms` and the threshold test of
`process_audio_stream`). -/
theorem C1_rms_classification (cfg : Config) (data : Chunk)
    (h : data ≠ []) :
    isSpeech cfg data = true ↔
      (cfg.SILENCE_THRESHOLD : ℝ) < Real.sqrt ((meanSq data : ℚ) : ℝ) := by
  unfold isSpeech
  rw [decide_eq_true_eq]
  have hm : (0 : ℝ) ≤ ((meanSq data : ℚ) : ℝ) := by
    exact_mod_cast meanSq_nonneg data
  constructor
  · rintro (hc | hc)
    · exact lt_of_lt_of_le (by exact_mod_cast hc) (Real.sqrt_nonneg _)
    · rcases lt_or_le (cfg.SILENCE_THRESHOLD : ℝ) 0 with hc0 | hc0
      · exact lt_of_lt_of_le hc0 (Real.sqrt_nonneg _)
      · exact (Real.lt_sqrt hc0).2 (by exact_mod_cast hc)
  · intro hlt
    rcases lt_or_le cfg.SILENCE_THRESHOLD 0 with hc0 | hc0
    · exact Or.inl hc0
    · refine Or.inr ?_
      have hc0' : (0 : ℝ) ≤ (cfg.SILENCE_THRESHOLD : ℝ) := by exact_mod_cast hc0
      exact_mod_cast (Real.lt_sqrt hc0').1 hlt

/-- Witness for C1 at the default configuration and a one-sample chunk. -/
theorem C1_rms_classification_witness :
    ([(1 : ℚ)] ≠ ([] : Chunk)) ∧
      (isSpeech exampleCfg [(1 : ℚ)] = true ↔
        (exampleCfg.SILENCE_THRESHOLD : ℝ) <
          Real.sqrt ((meanSq [(1 : ℚ)] : ℚ) : ℝ)) :=
  ⟨by simp, C1_rms_classification exampleCfg [(1 : ℚ)] (by simp)⟩

/-- C5: for a detected utterance (recording stopped with the minimum
speech duration reached and a nonempty buffer), `stop_recording` fires
exactly one background transcription task receiving the concatenation of
the buffered chunks in order, and empties the audio buffer. -/
theorem C5_one_task_per_utterance (cfg : Config) (st : ServiceState)
    (now : ℚ) (hrec : st.is_recording = true)
    (hdur : cfg.MIN_SPEECH_DURATION ≤ now - st.speech_start)
    (hbuf : st.audio_buffer ≠ []) :
    stop_recording cfg st now =
      ({ st with is_recording := false, audio_buffer := [] },
        some st.audio_buffer.flatten) := by
  unfold stop_recording
  rw [hrec]
  rw [if_pos rfl, if_neg (not_lt.2 hdur), if_neg]
  simp [hbuf]

/-- Witness for C5: a recording of two chunks, long enough, is handed to
exactly one transcription task as the concatenated samples. -/
theorem C5_one_task_per_utterance_witness :
    stop_recording exampleCfg
        { is_recording := true
          audio_buffer := [[(1 : ℚ)], [(2 : ℚ)]]
          silence_start := some 1
          speech_start := 0
          audio_ring_buffer := [] } 1 =
      ({ is_recording := false
         audio_buffer := []
         silence_start := some 1
         speech_start := 0
         audio_ring_buffer := [] },
        some [(1 : ℚ), (2 : ℚ)]) := by
  rw [C5_one_task_per_utterance exampleCfg _ 1 rfl
    (by unfold exampleCfg; norm_num) (by simp)]
  simp

/-- C7: when a recording stops with elapsed speech duration strictly below
`MIN_SPEECH_DURATION`, the buffered audio is discarded: the audio buffer
is cleared and no transcription task is fired. -/
theorem C7_min_duration_discard (cfg : Config) (st : ServiceState)
    (now : ℚ) (hrec : st.is_recording = true)
    (hdur : now - st.speech_start < cfg.MIN_SPEECH_DURATION) :
    stop_recording cfg st now =
      ({ st with is_recording := false, audio_buffer := [] }, none) := by
  unfold stop_recording
  rw [hrec]
  rw [if_pos rfl, if_pos hdur]

/-- Witness for C7: a recording stopped after `0.1` seconds is discarded
without firing a task. -/
theorem C7_min_duration_discard_witness :
    stop_recording exampleCfg
        { is_recording := true
          audio_buffer := [[(1 : ℚ)]]
          silence_start := some 1
          speech_start := 0
          audio_ring_buffer := [] } (1 / 10) =
      ({ is_recording := false
         audio_buffer := []
         silence_start := some 1
         speech_start := 0
         audio_ring_buffer := [] }, none) := by
  rw [C7_min_duration_discard exampleCfg _ (1 / 10) rfl
    (by unfold exampleCfg; norm_num)]

/-- C9: after each poll of the audio server, the monitor's `mic_active`
flag equals the polled activity value; the indicator is shown exactly on
an inactive-to-active transition, hidden exactly on an active-to-inactive
transition, and nothing happens when the poll repeats the previous
value. -/
theorem C9_monitor_transitions (a polled : Bool) (app : Option String) :
    (micStep a polled app).1 = polled ∧
      ((micStep a polled app).2 = some (MicAction.showInd app) ↔
        polled = true ∧ a = false) ∧
      ((micStep a polled app).2 = some MicAction.hideInd ↔
        polled = false ∧ a = true) ∧
      ((micStep a polled app).2 = none ↔ polled = a) := by
  cases a <;> cases polled <;> simp [micStep]

/-- Helper: both branches of `type_text` produce the text followed by one
trailing space. -/
theorem type_text_eq (a : Bool) (text : String) :
    type_text a text = text ++ r" " := by
  unfold type_text
  split <;> rfl

/-- C10: the typed output is independent of the `auto_punctuation`
configuration flag: both branches of `type_text` emit the text followed by
exactly one trailing space. -/
theorem C10_auto_punct_independent (a b : Bool) (text : String) :
    type_text a text = type_text b text ∧
      type_text a text = text ++ r" " := by
  rw [type_text_eq, type_text_eq]
  exact ⟨rfl, rfl⟩

/-- Counterexample to C6 as stated: the transcription text `thank you` is
produced by the model but filtered out by `is_valid_transcription`, so
nothing is typed for that segment. -/
theorem C6_typed_cex :
    process_speech_typed true (r"thank you") = none := by decide

/-- C6 amended: the resulting transcription text is typed into the focused
window exactly when it is nonempty and passes the hallucination filter
`is_valid_transcription`; what is typed is the text followed by one
space. -/
theorem C6_typed_iff_valid (auto_punctuation : Bool) (text out : String) :
    process_speech_typed auto_punctuation text = some out ↔
      (text.isEmpty = false ∧ is_valid_transcription text = true ∧
        out = text ++ r" ") := by
  unfold process_speech_typed
  constructor
  · intro h
    by_cases hc : (!text.isEmpty && is_valid_transcription text) = true
    · rw [if_pos hc] at h
      rw [Bool.and_eq_true] at hc
      obtain ⟨h1, h2⟩ := hc
      injection h with h
      exact ⟨by simpa using h1, h2, by rw [← h, type_text_eq]⟩
    · rw [if_neg hc] at h
      cases h
  · rintro ⟨hE, hV, rfl⟩
    rw [if_pos (by rw [Bool.and_eq_true]; exact ⟨by simp [hE], hV⟩)]
    rw [type_text_eq]

/-- C3: the pre-roll ring buffer holds at most
`pre_record_chunks = int(PRE_RECORD_SECONDS / CHUNK_SECONDS)` of the most
recently ingested chunks (the post-step ring is a suffix of the previous
ring with the new chunk appended), and when a recording starts the segment
buffer is initialised with the entire current contents of the ring buffer
(followed by the onset chunk appended by the loop body). -/
theorem C3_preroll_buffer (cfg : Config) (st : ServiceState) (c : Chunk)
    (now : ℚ) (hrec : st.is_recording = false)
    (hsp : isSpeech cfg c = true) :
    (processChunk cfg st c now).1.audio_ring_buffer.length ≤
        pre_record_chunks cfg ∧
      List.IsSuffix (processChunk cfg st c now).1.audio_ring_buffer
        (st.audio_ring_buffer ++ [c]) ∧
      (processChunk cfg st c now).1.audio_buffer =
        pushRing (pre_record_chunks cfg) st.audio_ring_buffer c ++ [c] := by
  refine ⟨?_, ?_, ?_⟩
  · rw [processChunk_ring]
    exact length_pushRing_le _ _ _
  · rw [processChunk_ring]
    exact List.drop_suffix _ _
  · simp [processChunk, hsp, start_recording, hrec]

/-- Witness for C3 at the default configuration: the first speech chunk
starts a recording whose buffer is the pushed ring plus the chunk. -/
theorem C3_preroll_buffer_witness :
    (processChunk exampleCfg initState [(1 : ℚ)] 0).1.audio_ring_buffer.length ≤
        pre_record_chunks exampleCfg ∧
      List.IsSuffix
        (processChunk exampleCfg initState [(1 : ℚ)] 0).1.audio_ring_buffer
        (initState.audio_ring_buffer ++ [[(1 : ℚ)]]) ∧
      (processChunk exampleCfg initState [(1 : ℚ)] 0).1.audio_buffer =
        pushRing (pre_record_chunks exampleCfg) initState.audio_ring_buffer
            [(1 : ℚ)] ++ [[(1 : ℚ)]] :=
  C3_preroll_buffer exampleCfg initState [(1 : ℚ)] 0 rfl
    (by norm_num [isSpeech, meanSq, exampleCfg])

/-- Concrete counterexample state for C4: recording, one buffered chunk,
silence timer not yet started. -/
def cexStA : ServiceState :=
  { is_recording := true
    audio_buffer := [[(1 : ℚ)]]
    silence_start := none
    speech_start := 0
    audio_ring_buffer := [] }

/-- Concrete counterexample state for C4: same as `cexStA` but with the
silence timer already running since time `0`. -/
def cexStB : ServiceState :=
  { cexStA with silence_start := some 0 }

/-- Counterexample to C4 as stated: two loop configurations that agree on
all three named boolean conditions (above/below threshold, pre-roll full,
silence-duration exceeded) and on the recording flag, yet transition to
different successor states — the branch taken also depends on whether the
silence timer is already running. -/
theorem C4_three_conditions_cex :
    condSpeech exampleCfg [(0 : ℚ)] = condSpeech exampleCfg [(0 : ℚ)] ∧
      condPreRollFull exampleCfg cexStA = condPreRollFull exampleCfg cexStB ∧
      condSilenceExceeded exampleCfg cexStA (1 / 2) =
        condSilenceExceeded exampleCfg cexStB (1 / 2) ∧
      cexStA.is_recording = cexStB.is_recording ∧
      (processChunk exampleCfg cexStA [(0 : ℚ)] (1 / 2)).1.audio_buffer ≠
        (processChunk exampleCfg cexStB [(0 : ℚ)] (1 / 2)).1.audio_buffer := by
  have hsp : isSpeech exampleCfg [(0 : ℚ)] = false := by
    norm_num [isSpeech, meanSq, exampleCfg]
  have hA := processChunk_silence_set_timer exampleCfg cexStA [(0 : ℚ)]
    (1 / 2) hsp rfl rfl
  have hB := processChunk_silence_buffer exampleCfg cexStB [(0 : ℚ)]
    (1 / 2) 0 hsp rfl rfl (by norm_num [exampleCfg])
  refine ⟨rfl, rfl, ?_, rfl, ?_⟩
  · have : condSilenceExceeded exampleCfg cexStB (1 / 2) = false := by
      simp only [condSilenceExceeded, cexStB, cexStA]
      norm_num [exampleCfg]
    rw [this]
    rfl
  · rw [hA, hB]
    simp [cexStA, cexStB]

/-- C4 amended: the loop's control transitions are determined by the
speech/silence classification together with the recording flag, whether
the silence timer is unset, whether the silence duration is exceeded,
whether the minimum speech duration is met, and whether the segment buffer
is nonempty; pre-roll fullness plays no role in the control flow.  Two
configurations agreeing on these conditions make the same recording-flag
transition, fire a task in the same cases, and agree on whether the
silence timer is running afterwards. -/
theorem C4_transition_conditions (cfg cfg' : Config)
    (st st' : ServiceState) (c c' : Chunk) (t t' : ℚ)
    (h1 : st.is_recording = st'.is_recording)
    (h2 : condSpeech cfg c = condSpeech cfg' c')
    (h3 : st.silence_start.isNone = st'.silence_start.isNone)
    (h4 : condSilenceExceeded cfg st t = condSilenceExceeded cfg' st' t')
    (h5 : condMinSpeechMet cfg st t = condMinSpeechMet cfg' st' t')
    (h6 : st.audio_buffer.isEmpty = st'.audio_buffer.isEmpty) :
    (processChunk cfg st c t).1.is_recording =
        (processChunk cfg' st' c' t').1.is_recording ∧
      (processChunk cfg st c t).2.isSome =
        (processChunk cfg' st' c' t').2.isSome ∧
      (processChunk cfg st c t).1.silence_start.isNone =
        (processChunk cfg' st' c' t').1.silence_start.isNone := by
  rcases st with ⟨rec, buf, ss, sps, ring⟩
  rcases st' with ⟨rec', buf', ss', sps', ring'⟩
  simp only [condSpeech] at h2
  simp only at h1 h3 h6
  subst h1
  simp only [condMinSpeechMet] at h5
  cases hc : isSpeech cfg c
  · have hc' : isSpeech cfg' c' = false := by rw [← h2, hc]
    cases rec
    · simp [processChunk, hc, hc', h3]
    · cases ss with
      | none =>
        have hss' : ss' = none := by
          cases ss' <;> simp_all
        subst hss'
        simp [processChunk, hc, hc']
      | some s =>
        obtain ⟨s', rfl⟩ : ∃ x, ss' = some x := by
          cases ss' <;> simp_all
        simp only [condSilenceExceeded] at h4
        by_cases hd : cfg.SILENCE_DURATION < t - s
        · have hd' : cfg'.SILENCE_DURATION < t' - s' := by
            have := decide_eq_decide.mp h4
            exact this.mp hd
          by_cases hm : cfg.MIN_SPEECH_DURATION ≤ t - sps
          · have hm' : cfg'.MIN_SPEECH_DURATION ≤ t' - sps' := by
              have := decide_eq_decide.mp h5
              exact this.mp hm
            simp [processChunk, stop_recording, hc, hc', hd, hd',
              not_lt.2 hm, not_lt.2 hm', h6]
            cases hb : buf.isEmpty <;> simp_all
          · have hm' : ¬ cfg'.MIN_SPEECH_DURATION ≤ t' - sps' := by
              have := decide_eq_decide.mp h5
              exact fun hx => hm (this.mpr hx)
            simp [processChunk, stop_recording, hc, hc', hd, hd',
              not_le.1 hm, not_le.1 hm']
        · have hd' : ¬ cfg'.SILENCE_DURATION < t' - s' := by
            have := decide_eq_decide.mp h4
            exact fun hx => hd (this.mpr hx)
          simp [processChunk, hc, hc', hd, hd']
  · have hc' : isSpeech cfg' c' = true := by rw [← h2, hc]
    cases rec <;> simp [processChunk, start_recording, hc, hc']

/-- Witness for C4's amended theorem at a concrete configuration. -/
theorem C4_transition_conditions_witness :
    (processChunk exampleCfg cexStA [(0 : ℚ)] (1 / 2)).1.is_recording =
        (processChunk exampleCfg cexStA [(0 : ℚ)] (1 / 2)).1.is_recording ∧
      (processChunk exampleCfg cexStA [(0 : ℚ)] (1 / 2)).2.isSome =
        (processChunk exampleCfg cexStA [(0 : ℚ)] (1 / 2)).2.isSome ∧
      (processChunk exampleCfg cexStA [(0 : ℚ)] (1 / 2)).1.silence_start.isNone =
        (processChunk exampleCfg cexStA [(0 : ℚ)] (1 / 2)).1.silence_start.isNone :=
  C4_transition_conditions exampleCfg exampleCfg cexStA cexStA
    [(0 : ℚ)] [(0 : ℚ)] (1 / 2) (1 / 2) rfl rfl rfl rfl rfl rfl

/-- Counterexample to C8 as stated: an exception in the audio loop does
not leave the loop running — the `try`/`except` wraps the whole `while`,
so the chunk arriving after the exception is never processed, although
processing it would have started a recording. -/
theorem C8_log_continue_cex :
    process_audio_stream exampleCfg initState
        [AudioEvent.err, AudioEvent.chunk [(1 : ℚ)] 0] = (initState, []) ∧
      (processChunk exampleCfg initState [(1 : ℚ)] 0).1.is_recording = true := by
  constructor
  · rfl
  · have hsp : isSpeech exampleCfg [(1 : ℚ)] = true := by
      norm_num [isSpeech, meanSq, exampleCfg]
    simp [processChunk, hsp, start_recording, initState]

/-- C8 amended: an exception while polling microphone activity leaves the
monitor loop running (error events are simply skipped), but an exception
while processing an audio chunk terminates the audio loop — only the
prefix of the stream before the first exception is processed. -/
theorem C8_error_handling (cfg : Config) (st : ServiceState) (a : Bool)
    (evs : List MicEvent) (aevs : List AudioEvent) :
    micRun a evs =
        micRun a (evs.filter fun e => decide (e ≠ MicEvent.err)) ∧
      process_audio_stream cfg st aevs =
        process_audio_stream cfg st
          (aevs.takeWhile fun e => decide (e ≠ AudioEvent.err)) := by
  constructor
  · induction evs generalizing a with
    | nil => rfl
    | cons e rest ih =>
      cases e with
      | err => simpa [micRun, List.filter] using ih a
      | poll b app => simp [micRun, List.filter, ih]
  · induction aevs generalizing st with
    | nil => rfl
    | cons e rest ih =>
      cases e with
      | err => rfl
      | chunk c t => simp [process_audio_stream, List.takeWhile, ih]

/-- Helper: `stop_recording` always clears the recording flag when it was
set. -/
theorem stop_recording_clears (cfg : Config) (st : ServiceState) (now : ℚ)
    (hrec : st.is_recording = true) :
    (stop_recording cfg st now).1.is_recording = false := by
  rcases st with ⟨rec, buf, ss, sps, ring⟩
  simp only at hrec
  subst hrec
  simp only [stop_recording]
  split_ifs <;> rfl

/-- Helper: after one loop iteration the silence timer is either cleared,
just set to the current time on a silence chunk, or left unchanged on a
silence chunk. -/
theorem processChunk_silence_cases (cfg : Config) (st : ServiceState)
    (c : Chunk) (now : ℚ) :
    (processChunk cfg st c now).1.silence_start = none ∨
      ((processChunk cfg st c now).1.silence_start = some now ∧
        isSpeech cfg c = false) ∨
      ((processChunk cfg st c now).1.silence_start = st.silence_start ∧
        isSpeech cfg c = false) := by
  cases hc : isSpeech cfg c
  · cases hr : st.is_recording
    · exact Or.inr (Or.inr ⟨by rw [processChunk_silence_idle cfg st c now hc hr], rfl⟩)
    · cases hss : st.silence_start with
      | none =>
        refine Or.inr (Or.inl ⟨?_, rfl⟩)
        rw [processChunk_silence_set_timer cfg st c now hc hr hss]
      | some s =>
        by_cases hd : cfg.SILENCE_DURATION < now - s
        · refine Or.inr (Or.inr ⟨?_, rfl⟩)
          rw [processChunk_silence_stop cfg st c now s hc hr hss hd]
          simp only [stop_recording]
          split_ifs <;> simp [hss]
        · refine Or.inr (Or.inr ⟨?_, rfl⟩)
          rw [processChunk_silence_buffer cfg st c now s hc hr hss hd]
          exact hss
  · cases hr : st.is_recording
    · exact Or.inl (by rw [processChunk_speech_start cfg st c now hc hr])
    · exact Or.inl (by rw [processChunk_speech_cont cfg st c now hc hr])

/-- Helper: a loop iteration that clears the recording flag is a silence
chunk with an expired silence timer. -/
theorem processChunk_stop_cases (cfg : Config) (st : ServiceState)
    (c : Chunk) (now : ℚ) (hrec : st.is_recording = true)
    (hstop : (processChunk cfg st c now).1.is_recording = false) :
    isSpeech cfg c = false ∧
      ∃ s, st.silence_start = some s ∧ cfg.SILENCE_DURATION < now - s := by
  cases hc : isSpeech cfg c
  · cases hss : st.silence_start with
    | none =>
      rw [processChunk_silence_set_timer cfg st c now hc hrec hss] at hstop
      rw [hrec] at hstop
      cases hstop
    | some s =>
      by_cases hd : cfg.SILENCE_DURATION < now - s
      · exact ⟨rfl, s, rfl, hd⟩
      · rw [processChunk_silence_buffer cfg st c now s hc hrec hss hd] at hstop
        rw [hrec] at hstop
        cases hstop
  · rw [processChunk_speech_cont cfg st c now hc hrec] at hstop
    rw [hrec] at hstop
    cases hstop

/-- Helper: running one more chunk of a trace is one `processChunk` step
on the prefix state. -/
theorem runTrace_take_succ (cfg : Config) (tr : List (Chunk × ℚ))
    (st : ServiceState) (i : Nat) (hi : i < tr.length) :
    runTrace cfg st (tr.take (i + 1)) =
      (processChunk cfg (runTrace cfg st (tr.take i))
        (tr[i]).1 (tr[i]).2).1 := by
  rw [List.take_succ, List.getElem?_eq_getElem hi]
  unfold runTrace
  rw [List.foldl_append]
  rfl

/-- Helper invariant: whenever the silence timer holds the value `s`,
every speech chunk processed so far arrived strictly before `s` (times
along the trace are strictly increasing). -/
theorem silenceStart_speech_lt (cfg : Config) (tr : List (Chunk × ℚ))
    (hmono : tr.Pairwise fun a b => a.2 < b.2) :
    ∀ i, i ≤ tr.length → ∀ s,
      (runTrace cfg initState (tr.take i)).silence_start = some s →
      ∀ j, j < i → ∀ (hj' : j < tr.length),
        isSpeech cfg (tr[j]).1 = true → (tr[j]).2 < s := by
  intro i
  induction i with
  | zero =>
    intro _ s _ j hj _ _
    exact absurd hj (Nat.not_lt_zero j)
  | succ i ih =>
    intro hi1 s hs j hj hj' hsp
    have hi : i < tr.length := Nat.lt_of_succ_le hi1
    rw [runTrace_take_succ cfg tr initState i hi] at hs
    rcases processChunk_silence_cases cfg (runTrace cfg initState (tr.take i))
        (tr[i]).1 (tr[i]).2 with hA | ⟨hB, hBsp⟩ | ⟨hC, hCsp⟩
    · rw [hA] at hs
      cases hs
    · rw [hB] at hs
      injection hs with hs
      subst hs
      rcases Nat.lt_succ_iff_lt_or_eq.mp hj with hji | rfl
      · have hp := List.pairwise_iff_get.mp hmono ⟨j, hj'⟩ ⟨i, hi⟩
          (Fin.mk_lt_mk.mpr hji)
        simpa using hp
      · rw [hsp] at hBsp
        cases hBsp
    · rw [hC] at hs
      rcases Nat.lt_succ_iff_lt_or_eq.mp hj with hji | rfl
      · exact ih (Nat.le_of_succ_le hi1) s hs j hji hj' hsp
      · rw [hsp] at hCsp
        cases hCsp

/-- C2: starting from the initial service state, and with chunk times
strictly increasing, a recording in progress is stopped at step `i` only
on a silence chunk, and only when every earlier speech chunk `j` lies more
than `SILENCE_DURATION` in the past — speech resets the silence timer, so
a recording never ends while speech occurred within the last
`SILENCE_DURATION` seconds. -/
theorem C2_silence_hysteresis (cfg : Config) (tr : List (Chunk × ℚ))
    (hmono : tr.Pairwise fun a b => a.2 < b.2)
    (i : Nat) (hi : i < tr.length)
    (hrec : (runTrace cfg initState (tr.take i)).is_recording = true)
    (hstop : (processChunk cfg (runTrace cfg initState (tr.take i))
        (tr[i]).1 (tr[i]).2).1.is_recording = false)
    (j : Nat) (hj : j < i)
    (hsp : isSpeech cfg (tr[j]).1 = true) :
    isSpeech cfg (tr[i]).1 = false ∧
      cfg.SILENCE_DURATION < (tr[i]).2 - (tr[j]).2 := by
  obtain ⟨hnsp, s, hss, hd⟩ := processChunk_stop_cases cfg
    (runTrace cfg initState (tr.take i)) (tr[i]).1 (tr[i]).2 hrec hstop
  refine ⟨hnsp, ?_⟩
  have hjlen : j < tr.length := lt_trans hj hi
  have hlt : (tr[j]).2 < s :=
    silenceStart_speech_lt cfg tr hmono i (Nat.le_of_lt hi) s hss j hj hjlen hsp
  linarith

/-- Concrete trace for the C2 witness: a speech chunk at time `0`, then
silence chunks at times `1` and `3`. -/
def cexTrace : List (Chunk × ℚ) :=
  [([(1 : ℚ)], 0), ([(0 : ℚ)], 1), ([(0 : ℚ)], 3)]

/-- State of the C2 witness trace after its first chunk. -/
def wSt1 : ServiceState :=
  { is_recording := true
    audio_buffer :=
      pushRing (pre_record_chunks exampleCfg) [] [(1 : ℚ)] ++ [[(1 : ℚ)]]
    silence_start := none
    speech_start := 0
    audio_ring_buffer := pushRing (pre_record_chunks exampleCfg) [] [(1 : ℚ)] }

/-- State of the C2 witness trace after its second chunk. -/
def wSt2 : ServiceState :=
  { wSt1 with
    silence_start := some 1
    audio_ring_buffer :=
      pushRing (pre_record_chunks exampleCfg) wSt1.audio_ring_buffer
        [(0 : ℚ)] }

/-- Witness for C2 on `cexTrace`: the stop at step `2` happens more than
`SILENCE_DURATION` after the speech chunk at step `0`. -/
theorem C2_silence_hysteresis_witness :
    isSpeech exampleCfg (cexTrace[2]).1 = false ∧
      exampleCfg.SILENCE_DURATION < (cexTrace[2]).2 - (cexTrace[0]).2 := by
  have h1 : isSpeech exampleCfg [(1 : ℚ)] = true := by
    norm_num [isSpeech, meanSq, exampleCfg]
  have h0 : isSpeech exampleCfg [(0 : ℚ)] = false := by
    norm_num [isSpeech, meanSq, exampleCfg]
  have e2 : runTrace exampleCfg initState (cexTrace.take 2) = wSt2 := by
    show (processChunk exampleCfg
      (processChunk exampleCfg initState [(1 : ℚ)] 0).1 [(0 : ℚ)] 1).1 = wSt2
    rw [processChunk_speech_start exampleCfg initState [(1 : ℚ)] 0 h1 rfl]
    show (processChunk exampleCfg wSt1 [(0 : ℚ)] 1).1 = wSt2
    rw [processChunk_silence_set_timer exampleCfg wSt1 [(0 : ℚ)] 1 h0 rfl rfl]
    rfl
  refine C2_silence_hysteresis exampleCfg cexTrace
    (by norm_num [cexTrace, List.pairwise_cons]) 2 (by norm_num [cexTrace])
    ?_ ?_ 0 (by norm_num) h1
  · rw [e2]
    rfl
  · rw [e2]
    show (processChunk exampleCfg wSt2 [(0 : ℚ)] 3).1.is_recording = false
    rw [processChunk_silence_stop exampleCfg wSt2 [(0 : ℚ)] 3 1 h0 rfl rfl
      (by norm_num [exampleCfg])]
    exact stop_recording_clears exampleCfg _ 3 rfl

end Dictation
